import Mathlib

/-!
Shallow embedding of the slurm metrics aggregation code (package slurm,
build tag 2405) of prometheus-slurm-exporter, together with proofs about
the claims on its specification.

Modelling conventions:
* Go `(value, error)` returns together with possible runtime panics are
  modelled by `GoRes`: `ok` for a successful return, `err` for a returned
  non-nil error (carrying the formatted message), `crash` for a runtime
  panic (nil-pointer dereference or out-of-range index).
* Go pointers / optional JSON fields are `Option`.
* Go `float64` metric counters are modelled as `Int` (the only arithmetic
  the code performs on them is adding and subtracting integer-valued
  counts, which float64 carries out exactly on this range); the fairshare
  level, a genuine real-valued passthrough, is modelled as `ℚ`.
* Go `map[string]*T` is modelled as an insertion-ordered association list
  `SMap T`; Go regexp matches of the form `^lit` on a lowered token are
  modelled by a literal-prefix test on the character list; `strings.ToLower`
  is modelled on the ASCII range (all state tokens involved are ASCII).
-/

set_option maxHeartbeats 1000000

namespace SlurmExporter

/-- Outcome of a Go call: returned value, returned error, or runtime panic. -/
inductive GoRes (α : Type) where
  | ok : α → GoRes α
  | err : String → GoRes α
  | crash : GoRes α
  deriving DecidableEq

/-! ### String helpers (models of strings.* / strconv.Atoi) -/

/-- ASCII lower-casing of one character (model of the relevant fragment of
`strings.ToLower`). -/
def asciiLower (c : Char) : Char :=
  if 65 ≤ c.toNat && c.toNat ≤ 90 then Char.ofNat (c.toNat + 32) else c

/-- Model of `strings.ToLower` restricted to ASCII letters. -/
def lowerStr (s : String) : String :=
  String.mk (s.data.map asciiLower)

/-- Does the first list occur at the head of the second list? -/
def takeMatches : List Char → List Char → Bool
  | [], _ => true
  | _ :: _, [] => false
  | a :: n, b :: h => a == b && takeMatches n h

/-- Does the first list occur somewhere inside the second list? -/
def subAt : List Char → List Char → Bool
  | n, [] => takeMatches n []
  | n, b :: h => takeMatches n (b :: h) || subAt n h

/-- Model of `strings.Contains hay needle`. -/
def strContainsSub (hay needle : String) : Bool :=
  subAt needle.data hay.data

/-- Model of a Go regexp `^lit` match: the token starts with the literal. -/
def tokenStarts (tok lit : String) : Bool :=
  takeMatches lit.data tok.data

/-- Split a character list on a separator character (every occurrence). -/
def splitOnChar (c : Char) : List Char → List (List Char)
  | [] => [[]]
  | a :: rest =>
    let r := splitOnChar c rest
    if a == c then [] :: r
    else
      match r with
      | [] => [[a]]
      | g :: gs => (a :: g) :: gs

/-- Model of `strings.Split s (one-character separator)`. -/
def splitStr (s : String) (c : Char) : List String :=
  (splitOnChar c s.data).map String.mk

/-- Accumulate decimal digits; `none` on the first non-digit character. -/
def parseDigitsAux : List Char → Nat → Option Nat
  | [], acc => some acc
  | c :: cs, acc =>
    if 48 ≤ c.toNat && c.toNat ≤ 57 then
      parseDigitsAux cs (acc * 10 + (c.toNat - 48))
    else none

/-- Model of `strconv.Atoi`: optional sign, then one or more digits. -/
def atoi (s : String) : Option Int :=
  match s.data with
  | [] => none
  | c :: cs =>
    if c == '+' then
      match cs with
      | [] => none
      | _ => (parseDigitsAux cs 0).map Int.ofNat
    else if c == '-' then
      match cs with
      | [] => none
      | _ => (parseDigitsAux cs 0).map (fun n => -(n : Int))
    else (parseDigitsAux (c :: cs) 0).map Int.ofNat

/-! ### Data model: raw API records (optional fields) -/

/-- The fields of `openapi.V0041OpenapiJobInfoRespJobsInner` that the
aggregators read. -/
structure JobInfo where
  account : Option String := none
  userName : Option String := none
  jobState : Option (List String) := none
  cpusNumber : Option Int := none
  dependency : Option String := none
  partition : Option String := none
  deriving DecidableEq

/-- The fields of `openapi.V0041OpenapiNodesRespNodesInner` that the
aggregators read. -/
structure NodeInfo where
  name : Option String := none
  hostname : Option String := none
  state : Option (List String) := none
  cpus : Option Int := none
  allocCpus : Option Int := none
  allocIdleCpus : Option Int := none
  allocMemory : Option Int := none
  realMemory : Option Int := none
  tres : Option String := none
  tresUsed : Option String := none
  partitions : Option (List String) := none
  deriving DecidableEq

/-- The fields of `openapi.V0041OpenapiPartitionRespPartitionsInner` that
the aggregators read. -/
structure PartitionInfo where
  name : Option String := none
  cpusTotal : Option Int := none
  deriving DecidableEq

/-- The fields of one share record of
`openapi.SlurmV0041GetShares200Response` that the aggregator reads. -/
structure ShareInfo where
  name : Option String := none
  fairshareLevel : Option ℚ := none
  deriving DecidableEq

/-! ### State enumerations (internal/types) -/

/-- `types.JobState`. -/
inductive JobState where
  | Pending | Running | Suspended | Cancelled | Completing | Completed
  | Configuring | Failed | Timeout | Preempted | NodeFail | OutOfMemory
  deriving DecidableEq

/-- `types.NodeState`. -/
inductive NodeState where
  | Alloc | Comp | Down | Drain | Fail | Err | Idle | Maint | Mix | Resv
  | NotResponding | Invalid | InvalidReg
  deriving DecidableEq

/-! ### Field accessors and state classifiers -/

/-- `GetJobAccountName`. -/
def GetJobAccountName (job : JobInfo) : GoRes String :=
  match job.account with
  | none => GoRes.err "account name not found in job"
  | some s => GoRes.ok s

/-- `GetJobPartitionName`. -/
def GetJobPartitionName (job : JobInfo) : GoRes String :=
  match job.partition with
  | none => GoRes.err "partition name not found in job"
  | some s => GoRes.ok s

/-- The ordered list of `^literal` rules of `GetJobState`, in source order:
first match wins. -/
def jobStateOfToken (state : String) : Option JobState :=
  if tokenStarts state "completed" then some JobState.Completed
  else if tokenStarts state "pending" then some JobState.Pending
  else if tokenStarts state "failed" then some JobState.Failed
  else if tokenStarts state "running" then some JobState.Running
  else if tokenStarts state "suspended" then some JobState.Suspended
  else if tokenStarts state "out_of_memory" then some JobState.OutOfMemory
  else if tokenStarts state "timeout" then some JobState.Timeout
  else if tokenStarts state "cancelled" then some JobState.Cancelled
  else if tokenStarts state "completing" then some JobState.Completing
  else if tokenStarts state "configuring" then some JobState.Configuring
  else if tokenStarts state "node_fail" then some JobState.NodeFail
  else if tokenStarts state "preempted" then some JobState.Preempted
  else none

/-- `GetJobState`: nil state field is a returned error; a present but empty
state list panics at the `states[0]` index (modelled `crash`); otherwise only
the first element, lower-cased, is classified. -/
def GetJobState (job : JobInfo) : GoRes JobState :=
  match job.jobState with
  | none => GoRes.err "job state not found in job"
  | some [] => GoRes.crash
  | some (s :: _) =>
    let state := lowerStr s
    match jobStateOfToken state with
    | some u => GoRes.ok u
    | none => GoRes.err ("failed to match job state against known states: " ++ state)

/-- `GetNodeName`. -/
def GetNodeName (node : NodeInfo) : GoRes String :=
  match node.name with
  | none => GoRes.err "node name not found in node information"
  | some s => GoRes.ok s

/-- `GetJobCPUs` (the count is converted to `float64` in the source). -/
def GetJobCPUs (job : JobInfo) : GoRes Int :=
  match job.cpusNumber with
  | none => GoRes.err "failed to find cpu count in job"
  | some n => GoRes.ok (n : Int)

/-- `GetPartitionName`. -/
def GetPartitionName (p : PartitionInfo) : GoRes String :=
  match p.name with
  | none => GoRes.err "failed to find name in partition"
  | some s => GoRes.ok s

/-- `GetPartitionTotalCPUs`. -/
def GetPartitionTotalCPUs (p : PartitionInfo) : GoRes Int :=
  match p.cpusTotal with
  | none => GoRes.err "failed to find total cpus in partition"
  | some n => GoRes.ok (n : Int)

/-- The ordered list of `^literal` rules of `GetNodeStates`, in source
order: first match wins (so the `invalid_reg` rule is tested after the
`invalid` rule, exactly as in the source switch). -/
def nodeStateOfToken (state : String) : Option NodeState :=
  if tokenStarts state "alloc" then some NodeState.Alloc
  else if tokenStarts state "comp" then some NodeState.Comp
  else if tokenStarts state "down" then some NodeState.Down
  else if tokenStarts state "drain" then some NodeState.Drain
  else if tokenStarts state "fail" then some NodeState.Fail
  else if tokenStarts state "err" then some NodeState.Err
  else if tokenStarts state "idle" then some NodeState.Idle
  else if tokenStarts state "maint" then some NodeState.Maint
  else if tokenStarts state "mix" then some NodeState.Mix
  else if tokenStarts state "res" then some NodeState.Resv
  else if tokenStarts state "not_responding" then some NodeState.NotResponding
  else if tokenStarts state "invalid" then some NodeState.Invalid
  else if tokenStarts state "invalid_reg" then some NodeState.InvalidReg
  else none

/-- The loop body of `GetNodeStates`: classify every token in order, first
failure aborts with the source's error message. -/
def classifyNodeTokens : List String → GoRes (List NodeState)
  | [] => GoRes.ok []
  | s :: rest =>
    let state := lowerStr s
    match nodeStateOfToken state with
    | none => GoRes.err ("failed to match cpu state against known states: " ++ state)
    | some u =>
      match classifyNodeTokens rest with
      | GoRes.ok l => GoRes.ok (u :: l)
      | GoRes.err m => GoRes.err m
      | GoRes.crash => GoRes.crash

/-- `GetNodeStates`. -/
def GetNodeStates (node : NodeInfo) : GoRes (List NodeState) :=
  match node.state with
  | none => GoRes.err "node state not found in node"
  | some states => classifyNodeTokens states

/-- The shared loop body of `GetNodeGPUTotal` / `GetNodeGPUAllocated` over
the comma-separated parts of a TRES string. -/
def gpuCountFromParts : List String → GoRes Int
  | [] => GoRes.ok 0
  | p :: rest =>
    if strContainsSub p "gres/gpu=" then
      match splitStr p '=' with
      | [_, ns] =>
        match atoi ns with
        | some n => GoRes.ok n
        | none => GoRes.err ("failed to parse number of gpus from tres: " ++ p)
      | _ => GoRes.err ("found gpu in tres but failed to parse: " ++ p)
    else gpuCountFromParts rest

/-- GPU count extraction from one TRES-style string. -/
def gpuCountFromTres (tres : String) : GoRes Int :=
  gpuCountFromParts (splitStr tres ',')

/-- `GetNodeGPUTotal` (dereferences the `tres` pointer unconditionally). -/
def GetNodeGPUTotal (node : NodeInfo) : GoRes Int :=
  match node.tres with
  | none => GoRes.crash
  | some t => gpuCountFromTres t

/-- `GetNodeGPUAllocated` (dereferences the `tres_used` pointer
unconditionally). -/
def GetNodeGPUAllocated (node : NodeInfo) : GoRes Int :=
  match node.tresUsed with
  | none => GoRes.crash
  | some t => gpuCountFromTres t

/-- `GetNodePartitions`: absent field yields the empty list, not an error. -/
def GetNodePartitions (node : NodeInfo) : List String :=
  match node.partitions with
  | none => []
  | some ps => ps

/-- `GetNodeAllocCPUs`: zero when absent. -/
def GetNodeAllocCPUs (node : NodeInfo) : Int :=
  match node.allocCpus with
  | none => 0
  | some v => v

/-- `GetNodeIdleCPUs`: zero when absent. -/
def GetNodeIdleCPUs (node : NodeInfo) : Int :=
  match node.allocIdleCpus with
  | none => 0
  | some v => v

/-! ### Association-list model of Go string-keyed maps -/

/-- Insertion-ordered association list modelling `map[string]*T`. -/
abbrev SMap (α : Type) := List (String × α)

/-- Lookup (`m[k]`). -/
def mapFind {α : Type} : SMap α → String → Option α
  | [], _ => none
  | (k, v) :: rest, key => if k == key then some v else mapFind rest key

/-- Insert or overwrite (`m[k] = v`); a new key is appended. -/
def mapSet {α : Type} : SMap α → String → α → SMap α
  | [], key, v => [(key, v)]
  | (k, w) :: rest, key, v =>
    if k == key then (key, v) :: rest else (k, w) :: mapSet rest key v

/-- In-place update of an existing key (`m[k].field = ...`); no-op when the
key is absent (the aggregators only use it after ensuring presence). -/
def mapUpd {α : Type} : SMap α → String → (α → α) → SMap α
  | [], _, _ => []
  | (k, v) :: rest, key, f =>
    if k == key then (k, f v) :: rest else (k, v) :: mapUpd rest key f

/-! ### Account / user job aggregators -/

/-- `JobMetrics` (per-account). -/
structure JobMetrics where
  pending : Int
  pending_cpus : Int
  running : Int
  running_cpus : Int
  suspended : Int
  deriving DecidableEq

/-- `NewJobMetrics` (zero value). -/
def NewJobMetrics : JobMetrics := ⟨0, 0, 0, 0, 0⟩

/-- The tallying switch of `ParseAccountsMetrics`: states other than
Pending/Running/Suspended leave the record unchanged. -/
def jmTally (state : JobState) (cpus : Int) (r : JobMetrics) : JobMetrics :=
  match state with
  | JobState.Pending =>
    { r with pending := r.pending + 1, pending_cpus := r.pending_cpus + cpus }
  | JobState.Running =>
    { r with running := r.running + 1, running_cpus := r.running_cpus + cpus }
  | JobState.Suspended => { r with suspended := r.suspended + 1 }
  | _ => r

/-- The loop of `ParseAccountsMetrics`: a job whose account name, state or
CPU count resolves to a returned error is logged and skipped (the account
entry having already been created once the name resolved); a panic inside a
resolver propagates. -/
def parseAccountsGo : List JobInfo → SMap JobMetrics → GoRes (SMap JobMetrics)
  | [], acc => GoRes.ok acc
  | j :: rest, acc =>
    match GetJobAccountName j with
    | GoRes.crash => GoRes.crash
    | GoRes.err _ => parseAccountsGo rest acc
    | GoRes.ok account =>
      let acc1 := if (mapFind acc account).isSome then acc
                  else mapSet acc account NewJobMetrics
      match GetJobState j with
      | GoRes.crash => GoRes.crash
      | GoRes.err _ => parseAccountsGo rest acc1
      | GoRes.ok state =>
        match GetJobCPUs j with
        | GoRes.crash => GoRes.crash
        | GoRes.err _ => parseAccountsGo rest acc1
        | GoRes.ok cpus =>
          parseAccountsGo rest (mapUpd acc1 account (jmTally state cpus))

/-- `ParseAccountsMetrics`. -/
def ParseAccountsMetrics (jobs : List JobInfo) : GoRes (SMap JobMetrics) :=
  parseAccountsGo jobs []

/-- `userJobMetrics` (per-user; the source duplicates the account shape). -/
structure UserJobMetrics where
  pending : Int
  pending_cpus : Int
  running : Int
  running_cpus : Int
  suspended : Int
  deriving DecidableEq

/-- `NewUserJobMetrics` (explicitly zeroed in the source). -/
def NewUserJobMetrics : UserJobMetrics := ⟨0, 0, 0, 0, 0⟩

/-- The tallying switch of `ParseUsersMetrics`. -/
def ujmTally (state : JobState) (cpus : Int) (r : UserJobMetrics) : UserJobMetrics :=
  match state with
  | JobState.Pending =>
    { r with pending := r.pending + 1, pending_cpus := r.pending_cpus + cpus }
  | JobState.Running =>
    { r with running := r.running + 1, running_cpus := r.running_cpus + cpus }
  | JobState.Suspended => { r with suspended := r.suspended + 1 }
  | _ => r

/-- The loop of `ParseUsersMetrics`: `*j.UserName` is dereferenced without a
nil check (crash when absent), and a returned resolution error from
`GetJobState` / `GetJobCPUs` aborts the whole call with a wrapped error —
no skipping. -/
def parseUsersGo : List JobInfo → SMap UserJobMetrics → GoRes (SMap UserJobMetrics)
  | [], acc => GoRes.ok acc
  | j :: rest, acc =>
    match j.userName with
    | none => GoRes.crash
    | some user =>
      let acc1 := if (mapFind acc user).isSome then acc
                  else mapSet acc user NewUserJobMetrics
      match GetJobState j with
      | GoRes.crash => GoRes.crash
      | GoRes.err m => GoRes.err ("failed to get job state: " ++ m)
      | GoRes.ok state =>
        match GetJobCPUs j with
        | GoRes.crash => GoRes.crash
        | GoRes.err m => GoRes.err ("failed to get job cpus: " ++ m)
        | GoRes.ok cpus =>
          parseUsersGo rest (mapUpd acc1 user (ujmTally state cpus))

/-- `ParseUsersMetrics`. -/
def ParseUsersMetrics (jobs : List JobInfo) : GoRes (SMap UserJobMetrics) :=
  parseUsersGo jobs []

/-! ### Cluster CPU aggregator -/

/-- `cpusMetrics`. -/
structure CpusMetrics where
  alloc : Int
  idle : Int
  other : Int
  total : Int
  deriving DecidableEq

/-- The jobs loop of `ParseCPUsMetrics`: a returned error from state or CPU
resolution is logged and the job skipped; Running jobs add their CPU count
to `alloc`. -/
def cpuJobsPass : List JobInfo → Int → GoRes Int
  | [], alloc => GoRes.ok alloc
  | j :: rest, alloc =>
    match GetJobState j with
    | GoRes.crash => GoRes.crash
    | GoRes.err _ => cpuJobsPass rest alloc
    | GoRes.ok state =>
      match GetJobCPUs j with
      | GoRes.crash => GoRes.crash
      | GoRes.err _ => cpuJobsPass rest alloc
      | GoRes.ok cpus =>
        cpuJobsPass rest (if state = JobState.Running then alloc + cpus else alloc)

/-- The inner state loop of the nodes pass: for every state in the node's
sequence equal to Mix, Alloc or Idle, `*n.AllocIdleCpus` is dereferenced
(crash as `none` when the field is absent) and added to the idle tally —
once per matching state occurrence. -/
def idleFold (aic : Option Int) : List NodeState → Int → Option Int
  | [], idle => some idle
  | ns :: rest, idle =>
    if ns = NodeState.Mix ∨ ns = NodeState.Alloc ∨ ns = NodeState.Idle then
      match aic with
      | none => none
      | some v => idleFold aic rest (idle + (v : Int))
    else idleFold aic rest idle

/-- The nodes loop of `ParseCPUsMetrics`: `*n.Cpus` is dereferenced without
a nil check; nodes with exactly one CPU are skipped entirely; a node-state
classification error is fatal to the whole call. Returns (total, idle). -/
def cpuNodesPass : List NodeInfo → Int → Int → GoRes (Int × Int)
  | [], total, idle => GoRes.ok (total, idle)
  | n :: rest, total, idle =>
    match n.cpus with
    | none => GoRes.crash
    | some c =>
      if c = 1 then cpuNodesPass rest total idle
      else
        let total1 := total + (c : Int)
        match GetNodeStates n with
        | GoRes.crash => GoRes.crash
        | GoRes.err m => GoRes.err ("failed to get node state for cpu metrics: " ++ m)
        | GoRes.ok states =>
          match idleFold n.allocIdleCpus states idle with
          | none => GoRes.crash
          | some idle1 => cpuNodesPass rest total1 idle1

/-- `ParseCPUsMetrics`. -/
def ParseCPUsMetrics (nodes : List NodeInfo) (jobs : List JobInfo) : GoRes CpusMetrics :=
  match cpuJobsPass jobs 0 with
  | GoRes.crash => GoRes.crash
  | GoRes.err m => GoRes.err m
  | GoRes.ok alloc =>
    match cpuNodesPass nodes 0 0 with
    | GoRes.crash => GoRes.crash
    | GoRes.err m => GoRes.err m
    | GoRes.ok (total, idle) =>
      GoRes.ok ⟨alloc, idle, total - idle - alloc, total⟩

/-! ### Queue aggregator -/

/-- `queueMetrics`. -/
structure QueueMetrics where
  pending : Int
  pending_dep : Int
  running : Int
  suspended : Int
  cancelled : Int
  completing : Int
  completed : Int
  configuring : Int
  failed : Int
  timeout : Int
  preempted : Int
  node_fail : Int
  deriving DecidableEq

/-- `NewQueueMetrics` (zero value). -/
def NewQueueMetrics : QueueMetrics := ⟨0, 0, 0, 0, 0, 0, 0, 0, 0, 0, 0, 0⟩

/-- The loop of `ParseQueueMetrics`: a state classification error is fatal;
a Pending job dereferences `*j.Dependency` without a nil check and splits on
non-emptiness; the switch has no OutOfMemory case, so such a job changes
nothing. -/
def queueGo : List JobInfo → QueueMetrics → GoRes QueueMetrics
  | [], qm => GoRes.ok qm
  | j :: rest, qm =>
    match GetJobState j with
    | GoRes.crash => GoRes.crash
    | GoRes.err m => GoRes.err ("failed to get job state: " ++ m)
    | GoRes.ok state =>
      match state with
      | JobState.Pending =>
        match j.dependency with
        | none => GoRes.crash
        | some d =>
          if d = "" then queueGo rest { qm with pending := qm.pending + 1 }
          else queueGo rest { qm with pending_dep := qm.pending_dep + 1 }
      | JobState.Running => queueGo rest { qm with running := qm.running + 1 }
      | JobState.Suspended => queueGo rest { qm with suspended := qm.suspended + 1 }
      | JobState.Cancelled => queueGo rest { qm with cancelled := qm.cancelled + 1 }
      | JobState.Completing => queueGo rest { qm with completing := qm.completing + 1 }
      | JobState.Completed => queueGo rest { qm with completed := qm.completed + 1 }
      | JobState.Configuring => queueGo rest { qm with configuring := qm.configuring + 1 }
      | JobState.Failed => queueGo rest { qm with failed := qm.failed + 1 }
      | JobState.Timeout => queueGo rest { qm with timeout := qm.timeout + 1 }
      | JobState.Preempted => queueGo rest { qm with preempted := qm.preempted + 1 }
      | JobState.NodeFail => queueGo rest { qm with node_fail := qm.node_fail + 1 }
      | JobState.OutOfMemory => queueGo rest qm

/-- `ParseQueueMetrics`. -/
def ParseQueueMetrics (jobs : List JobInfo) : GoRes QueueMetrics :=
  queueGo jobs NewQueueMetrics

/-! ### Fair-share aggregator -/

/-- `fairShareMetrics`. -/
structure FairShareMetrics where
  fairshare : ℚ
  deriving DecidableEq

/-- `NewFairShareMetrics` (zero value). -/
def NewFairShareMetrics : FairShareMetrics := ⟨0⟩

/-- The loop of `ParseFairShareMetrics`: `*s.Name` and `*s.Fairshare.Level`
are dereferenced without nil checks (crash when absent); each record seen
overwrites the keyed entry's level (last write wins). -/
def fairShareGo : List ShareInfo → SMap FairShareMetrics → GoRes (SMap FairShareMetrics)
  | [], acc => GoRes.ok acc
  | s :: rest, acc =>
    match s.name with
    | none => GoRes.crash
    | some account =>
      let acc1 := if (mapFind acc account).isSome then acc
                  else mapSet acc account NewFairShareMetrics
      match s.fairshareLevel with
      | none => GoRes.crash
      | some lvl => fairShareGo rest (mapUpd acc1 account (fun _ => ⟨lvl⟩))

/-- `ParseFairShareMetrics`. -/
def ParseFairShareMetrics (shares : List ShareInfo) : GoRes (SMap FairShareMetrics) :=
  fairShareGo shares []

/-! ### Partition cross-referencer -/

/-- `partitionMetrics`. -/
structure PartitionMetrics where
  cpus_allocated : Int
  cpus_idle : Int
  cpus_other : Int
  cpus_total : Int
  jobs_pending : Int
  deriving DecidableEq

/-- `NewPartitionsMetrics` (explicitly zeroed in the source). -/
def NewPartitionsMetrics : PartitionMetrics := ⟨0, 0, 0, 0, 0⟩

/-- Seed phase of `ParsePartitionsMetrics`: create each partition's record
and set `cpus_total`; a missing name or missing total is fatal. -/
def seedPhase : List PartitionInfo → SMap PartitionMetrics → GoRes (SMap PartitionMetrics)
  | [], acc => GoRes.ok acc
  | p :: rest, acc =>
    match GetPartitionName p with
    | GoRes.crash => GoRes.crash
    | GoRes.err m => GoRes.err ("failed to get partition name for partition metrics: " ++ m)
    | GoRes.ok pname =>
      let acc1 := if (mapFind acc pname).isSome then acc
                  else mapSet acc pname NewPartitionsMetrics
      match GetPartitionTotalCPUs p with
      | GoRes.crash => GoRes.crash
      | GoRes.err m => GoRes.err ("failed to collect cpu total for partition metrics: " ++ m)
      | GoRes.ok total =>
        seedPhase rest (mapUpd acc1 pname (fun r => { r with cpus_total := total }))

/-- The node-name pass of `ParsePartitionsMetrics`: the `nodePartitions` map
it builds is never read again, but a missing node name is fatal. -/
def nodeNamePass : List NodeInfo → GoRes Unit
  | [] => GoRes.ok ()
  | n :: rest =>
    match GetNodeName n with
    | GoRes.crash => GoRes.crash
    | GoRes.err m => GoRes.err ("failed to get node name for partition metrics: " ++ m)
    | GoRes.ok _ => nodeNamePass rest

/-- Node fan-out phase: every partition a node lists as a membership
receives the node's full allocated and idle CPU counts (lazily creating the
partition's record). -/
def fanOutNode (acc : SMap PartitionMetrics) (n : NodeInfo) : SMap PartitionMetrics :=
  let alloc : Int := (GetNodeAllocCPUs n : Int)
  let idle : Int := (GetNodeIdleCPUs n : Int)
  (GetNodePartitions n).foldl
    (fun acc pname =>
      let acc1 := if (mapFind acc pname).isSome then acc
                  else mapSet acc pname NewPartitionsMetrics
      mapUpd acc1 pname (fun r =>
        { r with cpus_allocated := r.cpus_allocated + alloc,
                 cpus_idle := r.cpus_idle + idle }))
    acc

/-- Derivation phase: `cpus_other = cpus_total - cpus_allocated - cpus_idle`
for every record present so far. -/
def derivePhase (acc : SMap PartitionMetrics) : SMap PartitionMetrics :=
  acc.map (fun kv =>
    (kv.1, { kv.2 with cpus_other := kv.2.cpus_total - kv.2.cpus_allocated - kv.2.cpus_idle }))

/-- Pending-job phase: the job's partition field (fatal when absent) is
split on commas and every named partition's `jobs_pending` is incremented,
lazily creating unseen partitions. -/
def pendingPhase : List JobInfo → SMap PartitionMetrics → GoRes (SMap PartitionMetrics)
  | [], acc => GoRes.ok acc
  | j :: rest, acc =>
    match GetJobPartitionName j with
    | GoRes.crash => GoRes.crash
    | GoRes.err m => GoRes.err ("failed to get job partition name for partition metrics: " ++ m)
    | GoRes.ok pname =>
      let acc1 := (splitStr pname ',').foldl
        (fun acc partitionName =>
          let a1 := if (mapFind acc partitionName).isSome then acc
                    else mapSet acc partitionName NewPartitionsMetrics
          mapUpd a1 partitionName (fun r => { r with jobs_pending := r.jobs_pending + 1 }))
        acc
      pendingPhase rest acc1

/-- `ParsePartitionsMetrics` (argument order as in the source:
partitions, jobs, nodes). -/
def ParsePartitionsMetrics (parts : List PartitionInfo) (jobs : List JobInfo)
    (nodes : List NodeInfo) : GoRes (SMap PartitionMetrics) :=
  match seedPhase parts [] with
  | GoRes.crash => GoRes.crash
  | GoRes.err m => GoRes.err m
  | GoRes.ok acc =>
    match nodeNamePass nodes with
    | GoRes.crash => GoRes.crash
    | GoRes.err m => GoRes.err m
    | GoRes.ok _ =>
      pendingPhase jobs (derivePhase (nodes.foldl fanOutNode acc))

/-- Is the outcome a returned (non-nil) error? -/
def isErr {α : Type} : GoRes α → Bool
  | GoRes.err _ => true
  | _ => false

/-- How many entries of a node-state sequence are Mix, Alloc or Idle. -/
def matchCount : List NodeState → Int
  | [] => 0
  | ns :: rest =>
    (if ns = NodeState.Mix ∨ ns = NodeState.Alloc ∨ ns = NodeState.Idle then 1 else 0)
      + matchCount rest

/-! ### Concrete records used by the claim theorems and witnesses -/

/-- A job whose raw state token matches no classification rule. -/
def jBadState : JobInfo :=
  { account := some "acct", userName := some "u", jobState := some ["mystery"],
    cpusNumber := some 4, dependency := some "", partition := some "p" }

/-- A job classified OutOfMemory. -/
def jOom : JobInfo :=
  { account := some "a", userName := some "u", jobState := some ["out_of_memory"],
    cpusNumber := some 1, dependency := some "x", partition := some "p" }

/-- A pending job with an empty dependency field. -/
def jPend : JobInfo :=
  { account := some "a", userName := some "u", jobState := some ["pending"],
    cpusNumber := some 2, dependency := some "", partition := some "p" }

/-- A running job using 4 CPUs (upper-case raw token). -/
def jRun4 : JobInfo :=
  { account := some "a", userName := some "u", jobState := some ["RUNNING"],
    cpusNumber := some 4, dependency := some "", partition := some "p" }

/-- A running job with a lower-case raw token and a second, ignored token. -/
def jRunLower : JobInfo :=
  { account := some "b", userName := some "v", jobState := some ["running", "mystery"],
    cpusNumber := some 9, dependency := some "x", partition := some "q" }

/-- A job whose state field is present but an empty list. -/
def jEmptyState : JobInfo :=
  { account := some "a", userName := some "u", jobState := some [],
    cpusNumber := some 1, dependency := some "", partition := some "p" }

/-- A job whose state field is absent. -/
def jNoState : JobInfo :=
  { account := some "a", userName := some "u", jobState := none,
    cpusNumber := some 1, dependency := some "", partition := some "p" }

/-- A job whose partition field is the comma-separated list "A,B". -/
def jAB : JobInfo :=
  { account := some "a", userName := some "u", jobState := some ["pending"],
    cpusNumber := some 1, dependency := some "", partition := some "A,B" }

/-- A running job whose CPU-count field is absent. -/
def jNoCpus : JobInfo :=
  { account := some "a", userName := some "u", jobState := some ["running"],
    cpusNumber := none, dependency := some "", partition := some "p" }

/-- A running job whose user-name field is absent. -/
def jNoUser : JobInfo :=
  { account := some "a", userName := none, jobState := some ["running"],
    cpusNumber := some 1, dependency := some "", partition := some "p" }

/-- A node whose raw state token matches no classification rule. -/
def nBadState : NodeInfo :=
  { name := some "nb", state := some ["weird"], cpus := some 8,
    allocCpus := some 0, allocIdleCpus := some 0 }

/-- A node with one state token beginning with invalid_reg. -/
def nInvalidReg : NodeInfo :=
  { name := some "nr", state := some ["invalid_reg"], cpus := some 8 }

/-- A node whose state sequence holds two of the idle-counting states. -/
def nTwoStates : NodeInfo :=
  { name := some "nt", state := some ["idle", "allocated"], cpus := some 8,
    allocCpus := some 6, allocIdleCpus := some 2 }

/-- An 8-CPU node in state Idle reporting 2 idle CPUs. -/
def nIdle8 : NodeInfo :=
  { name := some "ni", state := some ["IDLE"], cpus := some 8,
    allocCpus := some 0, allocIdleCpus := some 2 }

/-- An 8-CPU node in state down. -/
def nDown8 : NodeInfo :=
  { name := some "nd", state := some ["down"], cpus := some 8,
    allocCpus := some 0, allocIdleCpus := some 0 }

/-- Partition A seeded with 10 total CPUs. -/
def pA : PartitionInfo := { name := some "A", cpusTotal := some 10 }

/-- Member node of A with 4 allocated and 2 idle CPUs. -/
def nMemberA1 : NodeInfo :=
  { name := some "n1", partitions := some ["A"], allocCpus := some 4,
    allocIdleCpus := some 2, cpus := some 8 }

/-- Member node of A with 3 allocated and 1 idle CPUs. -/
def nMemberA2 : NodeInfo :=
  { name := some "n2", partitions := some ["A"], allocCpus := some 3,
    allocIdleCpus := some 1, cpus := some 8 }

/-- A node shared between partitions A and B. -/
def nSharedAB : NodeInfo :=
  { name := some "ns", partitions := some ["A", "B"], allocCpus := some 4,
    allocIdleCpus := some 2, cpus := some 8 }

/-- A node carrying the TRES strings of the specification's examples. -/
def nGpu : NodeInfo :=
  { name := some "ng", tres := some "cpu=48,mem=1020522M,billing=48,gres/gpu=4",
    tresUsed := some "cpu=1,mem=1M,billing=1" }

/-- Share record: account a, level 1. -/
def sA1 : ShareInfo := { name := some "a", fairshareLevel := some 1 }

/-- Share record: account b, level 5. -/
def sB5 : ShareInfo := { name := some "b", fairshareLevel := some 5 }

/-- Share record: account a again, level 2. -/
def sA2 : ShareInfo := { name := some "a", fairshareLevel := some 2 }

/-- Share record with an absent account name. -/
def sNoName : ShareInfo := { name := none, fairshareLevel := some 1 }

/-- Share record with an absent fairshare level. -/
def sNoLevel : ShareInfo := { name := some "c", fairshareLevel := none }


/-! ### Helper lemmas -/

/-- Looking up the key just set finds the value just set. -/
theorem mapFind_mapSet {α : Type} (acc : SMap α) (key : String) (v : α) :
    mapFind (mapSet acc key v) key = some v := by
  induction acc with
  | nil => simp [mapSet, mapFind]
  | cons kv rest ih =>
    by_cases h : kv.1 == key
    · simp [mapSet, mapFind, h]
    · simp [mapSet, mapFind, h, ih]

/-- Setting the same key twice keeps only the second value. -/
theorem mapSet_mapSet {α : Type} (acc : SMap α) (key : String) (v w : α) :
    mapSet (mapSet acc key v) key w = mapSet acc key w := by
  induction acc with
  | nil => simp [mapSet]
  | cons kv rest ih =>
    by_cases h : kv.1 == key
    · simp [mapSet, h]
    · simp [mapSet, h, ih]

/-- On a present key, a constant-function update is an overwrite. -/
theorem mapUpd_const_present {α : Type} (acc : SMap α) (key : String) (val : α)
    (h : (mapFind acc key).isSome = true) :
    mapUpd acc key (fun _ => val) = mapSet acc key val := by
  induction acc with
  | nil => simp [mapFind] at h
  | cons kv rest ih =>
    by_cases hk : kv.1 == key
    · obtain ⟨k, v0⟩ := kv
      have hkey : k = key := eq_of_beq hk
      subst hkey
      simp [mapUpd, mapSet]
    · simp only [mapFind, hk] at h
      simp [mapUpd, mapSet, hk, ih h]

/-- The account-jobs loop only ever returns `ok` or `crash`, never a
returned error: per-record failures are skipped. -/
theorem parseAccountsGo_ne_err (js : List JobInfo) (acc : SMap JobMetrics) (e : String) :
    parseAccountsGo js acc ≠ GoRes.err e := by
  induction js generalizing acc with
  | nil => simp [parseAccountsGo]
  | cons j rest ih =>
    simp only [parseAccountsGo]
    cases GetJobAccountName j with
    | crash => simp
    | err m => exact ih acc
    | ok account =>
      simp only
      cases GetJobState j with
      | crash => simp
      | err m => exact ih _
      | ok st =>
        simp only
        cases GetJobCPUs j with
        | crash => simp
        | err m => exact ih _
        | ok cpus => exact ih _

/-- The idle tally of the CPU nodes pass adds the node's idle-CPU field once
per matching state occurrence. -/
theorem idleFold_count (v : Int) (states : List NodeState) (q : Int) :
    idleFold (some v) states q = some (q + matchCount states * v) := by
  induction states generalizing q with
  | nil => simp [idleFold, matchCount]
  | cons ns rest ih =>
    by_cases hm : ns = NodeState.Mix ∨ ns = NodeState.Alloc ∨ ns = NodeState.Idle
    · simp only [idleFold, matchCount, if_pos hm, ih]
      congr 1
      ring
    · simp only [idleFold, matchCount, if_neg hm, ih]
      congr 1
      ring

/-- One fair-share record with both fields present overwrites its account's
entry with its level. -/
theorem fairShareGo_cons (s : ShareInfo) (rest : List ShareInfo)
    (acc : SMap FairShareMetrics) (a : String) (l : ℚ)
    (hn : s.name = some a) (hl : s.fairshareLevel = some l) :
    fairShareGo (s :: rest) acc = fairShareGo rest (mapSet acc a ⟨l⟩) := by
  simp only [fairShareGo, hn, hl]
  by_cases h : (mapFind acc a).isSome
  · simp [h, mapUpd_const_present acc a ⟨l⟩ h]
  · simp only [h, if_neg, Bool.false_eq_true, if_false]
    rw [mapUpd_const_present (mapSet acc a NewFairShareMetrics) a ⟨l⟩
        (by rw [mapFind_mapSet]; rfl),
      mapSet_mapSet]

/-- The fair-share loop over an appended list runs the two halves in
sequence. -/
theorem fairShareGo_append (xs ys : List ShareInfo) (acc : SMap FairShareMetrics) :
    fairShareGo (xs ++ ys) acc =
      match fairShareGo xs acc with
      | GoRes.ok m => fairShareGo ys m
      | GoRes.err e => GoRes.err e
      | GoRes.crash => GoRes.crash := by
  induction xs generalizing acc with
  | nil => simp [fairShareGo]
  | cons s rest ih =>
    simp only [List.cons_append, fairShareGo]
    cases s.name with
    | none => rfl
    | some a =>
      simp only
      cases s.fairshareLevel with
      | none => rfl
      | some l => exact ih _

/-! ### Claim theorems -/

/-- Claim C1, counterexample: on a job whose state token is unresolvable,
the user aggregator returns an error while the account aggregator skips the
record (after creating the zeroed account entry) and succeeds — the two
aggregators do not share the skip policy. -/
theorem C1_counterexample :
    ParseUsersMetrics [jBadState] =
      GoRes.err "failed to get job state: failed to match job state against known states: mystery" ∧
    isErr (ParseAccountsMetrics [jBadState]) = false ∧
    ParseAccountsMetrics [jBadState] = GoRes.ok [("acct", NewJobMetrics)] := by
  decide

/-- Claim C1, amended: the user aggregator is fail-fast, not skip-and-log:
with the user name present, a job whose state resolves to a returned error
aborts `ParseUsersMetrics` with a wrapped job-state error, a job whose
state resolves but whose CPU count resolves to a returned error aborts it
with a wrapped job-cpus error, a job whose user-name field is absent
crashes the call on the nil dereference, and `ParseAccountsMetrics` never
returns an error on any input. -/
theorem C1_users_fail_fast (j : JobInfo) (js : List JobInfo) (u m : String)
    (hu : j.userName = some u) (hs : GetJobState j = GoRes.err m)
    (j2 : JobInfo) (u2 : String) (st2 : JobState) (m2 : String)
    (hu2 : j2.userName = some u2) (hs2 : GetJobState j2 = GoRes.ok st2)
    (hc2 : GetJobCPUs j2 = GoRes.err m2)
    (j3 : JobInfo) (hu3 : j3.userName = none) :
    ParseUsersMetrics (j :: js) = GoRes.err ("failed to get job state: " ++ m) ∧
    ParseUsersMetrics (j2 :: js) = GoRes.err ("failed to get job cpus: " ++ m2) ∧
    ParseUsersMetrics (j3 :: js) = GoRes.crash ∧
    ∀ (jobs : List JobInfo) (e : String), ParseAccountsMetrics jobs ≠ GoRes.err e := by
  refine ⟨?_, ?_, ?_, ?_⟩
  · simp [ParseUsersMetrics, parseUsersGo, hu, hs]
  · simp [ParseUsersMetrics, parseUsersGo, hu2, hs2, hc2]
  · simp [ParseUsersMetrics, parseUsersGo, hu3]
  · intro jobs e
    exact parseAccountsGo_ne_err jobs [] e

/-- Claim C1, witness for the amended theorem: a concrete unresolvable
state, a concrete unresolvable CPU count, and a concrete absent user
name. -/
theorem C1_users_fail_fast_witness :
    ParseUsersMetrics [jBadState] =
      GoRes.err ("failed to get job state: " ++
        "failed to match job state against known states: mystery") ∧
    ParseUsersMetrics [jNoCpus] =
      GoRes.err ("failed to get job cpus: " ++ "failed to find cpu count in job") ∧
    ParseUsersMetrics [jNoUser] = GoRes.crash ∧
    ∀ (jobs : List JobInfo) (e : String), ParseAccountsMetrics jobs ≠ GoRes.err e :=
  C1_users_fail_fast jBadState [] "u"
    "failed to match job state against known states: mystery" rfl (by decide)
    jNoCpus "u" JobState.Running "failed to find cpu count in job"
    rfl (by decide) (by decide) jNoUser rfl

/-- Claim C2, counterexample: a job whose state token is unresolvable does
not abort `ParseCPUsMetrics` — the record is skipped and the call returns a
zeroed metrics record without error. -/
theorem C2_counterexample :
    GetJobState jBadState =
      GoRes.err "failed to match job state against known states: mystery" ∧
    isErr (ParseCPUsMetrics [] [jBadState]) = false ∧
    ParseCPUsMetrics [] [jBadState] = GoRes.ok ⟨0, 0, 0, 0⟩ := by
  decide

/-- Claim C2, amended: in `ParseCPUsMetrics` a job whose state or CPU count
resolves to a returned error is logged and skipped (the jobs loop leaves
the tally unchanged and continues), while a node whose state sequence
cannot be classified aborts the whole call with a wrapped error. -/
theorem C2_error_policy (j j2 : JobInfo) (js : List JobInfo) (a : Int)
    (m m2 nm : String) (st2 : JobState)
    (hj : GetJobState j = GoRes.err m)
    (hj2 : GetJobState j2 = GoRes.ok st2) (hc2 : GetJobCPUs j2 = GoRes.err m2)
    (n : NodeInfo) (ns : List NodeInfo) (c : Int) (hc : n.cpus = some c) (h1 : ¬ c = 1)
    (hn : GetNodeStates n = GoRes.err nm)
    (jobs : List JobInfo) (a2 : Int) (hjobs : cpuJobsPass jobs 0 = GoRes.ok a2) :
    cpuJobsPass (j :: js) a = cpuJobsPass js a ∧
    cpuJobsPass (j2 :: js) a = cpuJobsPass js a ∧
    ParseCPUsMetrics (n :: ns) jobs =
      GoRes.err ("failed to get node state for cpu metrics: " ++ nm) := by
  refine ⟨?_, ?_, ?_⟩
  · simp [cpuJobsPass, hj]
  · simp [cpuJobsPass, hj2, hc2]
  · simp [ParseCPUsMetrics, hjobs, cpuNodesPass, hc, h1, hn]

/-- Claim C2, witness for the amended theorem at concrete records. -/
theorem C2_error_policy_witness :
    cpuJobsPass [jBadState] 5 = cpuJobsPass [] 5 ∧
    cpuJobsPass [jNoCpus] 5 = cpuJobsPass [] 5 ∧
    ParseCPUsMetrics [nBadState] [] =
      GoRes.err ("failed to get node state for cpu metrics: " ++
        "failed to match cpu state against known states: weird") :=
  C2_error_policy jBadState jNoCpus [] 5
    "failed to match job state against known states: mystery"
    "failed to find cpu count in job"
    "failed to match cpu state against known states: weird"
    JobState.Running (by decide) (by decide) (by decide)
    nBadState [] 8 rfl (by decide) (by decide) [] 0 rfl

/-- Claim C3, counterexample: a job classified OutOfMemory increments no
counter of the queue-metrics record — the tallying switch has no
OutOfMemory case. -/
theorem C3_counterexample :
    GetJobState jOom = GoRes.ok JobState.OutOfMemory ∧
    ParseQueueMetrics [jOom] = GoRes.ok NewQueueMetrics := by
  decide

/-- Claim C3, amended: a classified job increments exactly one counter for
every state except OutOfMemory — Pending splits on the dependency field
being non-empty (the field must be present, else the code crashes) and an
OutOfMemory job increments nothing. -/
theorem C3_queue_tally (j : JobInfo) (st : JobState) (d : String)
    (h : GetJobState j = GoRes.ok st) (hd : j.dependency = some d) :
    ParseQueueMetrics [j] = GoRes.ok (
      match st with
      | JobState.Pending =>
        if d = "" then { NewQueueMetrics with pending := 1 }
        else { NewQueueMetrics with pending_dep := 1 }
      | JobState.Running => { NewQueueMetrics with running := 1 }
      | JobState.Suspended => { NewQueueMetrics with suspended := 1 }
      | JobState.Cancelled => { NewQueueMetrics with cancelled := 1 }
      | JobState.Completing => { NewQueueMetrics with completing := 1 }
      | JobState.Completed => { NewQueueMetrics with completed := 1 }
      | JobState.Configuring => { NewQueueMetrics with configuring := 1 }
      | JobState.Failed => { NewQueueMetrics with failed := 1 }
      | JobState.Timeout => { NewQueueMetrics with timeout := 1 }
      | JobState.Preempted => { NewQueueMetrics with preempted := 1 }
      | JobState.NodeFail => { NewQueueMetrics with node_fail := 1 }
      | JobState.OutOfMemory => NewQueueMetrics) := by
  cases st <;> simp [ParseQueueMetrics, queueGo, h, hd, NewQueueMetrics]
  split <;> simp

/-- Claim C3, witness for the amended theorem at a concrete pending job. -/
theorem C3_queue_tally_witness :
    ParseQueueMetrics [jPend] = GoRes.ok { NewQueueMetrics with pending := 1 } := by
  have h := C3_queue_tally jPend JobState.Pending "" (by decide) rfl
  simpa using h

/-- Claim C4: the `invalid` and `invalid_reg` rules of the node-state
classifier both match a token beginning with invalid_reg, and because the
`invalid` rule is tested first, such a token classifies to
`NodeState.Invalid` — the dedicated InvalidReg rule is unreachable, so rule
order does decide the result, contradicting the claim. The claim matches
the evident intent (the source compiles a dedicated invalid_reg rule and
enumerates NodeStateInvalidReg); the code's rule order is the slip. -/
theorem C4_invalid_reg_shadowed :
    tokenStarts "invalid_reg" "invalid" = true ∧
    tokenStarts "invalid_reg" "invalid_reg" = true ∧
    nodeStateOfToken "invalid_reg" = some NodeState.Invalid ∧
    GetNodeStates nInvalidReg = GoRes.ok [NodeState.Invalid] := by
  decide

/-- Claim C5, counterexample: a job whose raw state field is present but an
empty list makes `GetJobState` crash (index out of range), not return the
"job state not found" error the claim promises. -/
theorem C5_counterexample :
    GetJobState jEmptyState = GoRes.crash ∧
    GetJobState jEmptyState ≠ GoRes.err "job state not found in job" := by
  decide

/-- Claim C5, amended: `GetJobState` returns the "job state not found"
error only when the raw state field is absent; a present-but-empty list
crashes; on a non-empty list the result depends only on the first element,
matched case-insensitively. -/
theorem C5_job_state_access (j k : JobInfo) (s t : String) (r1 r2 : List String)
    (hj : j.jobState = some (s :: r1)) (hk : k.jobState = some (t :: r2))
    (hlow : lowerStr s = lowerStr t) :
    GetJobState j = GetJobState k ∧
    (∀ j0 : JobInfo, j0.jobState = none →
      GetJobState j0 = GoRes.err "job state not found in job") ∧
    (∀ j0 : JobInfo, j0.jobState = some [] → GetJobState j0 = GoRes.crash) := by
  refine ⟨?_, ?_, ?_⟩
  · simp [GetJobState, hj, hk, hlow]
  · intro j0 h0
    simp [GetJobState, h0]
  · intro j0 h0
    simp [GetJobState, h0]

/-- Claim C5, witness: the classification of an upper-case first token
agrees with that of its lower-case form even when the remaining record
differs, and an absent state field yields the error value. -/
theorem C5_job_state_access_witness :
    GetJobState jRun4 = GetJobState jRunLower ∧
    GetJobState jNoState = GoRes.err "job state not found in job" :=
  ⟨(C5_job_state_access jRun4 jRunLower "RUNNING" "running" [] ["mystery"]
      rfl rfl (by decide)).1,
   (C5_job_state_access jRun4 jRunLower "RUNNING" "running" [] ["mystery"]
      rfl rfl (by decide)).2.1 jNoState rfl⟩

/-- Claim C6: the partition cross-referencer, on partition A seeded with 10
total CPUs, two member nodes (alloc 4/idle 2 and alloc 3/idle 1) and one
job naming "A,B", accumulates cpus_allocated 7 and cpus_idle 3, derives
cpus_other 0, and increments jobs_pending for both A and the lazily created
B; and a node shared between two partitions contributes its full counts to
each. -/
theorem C6_partition_cross_reference :
    ParsePartitionsMetrics [pA] [jAB] [nMemberA1, nMemberA2] =
      GoRes.ok [("A", ⟨7, 3, 0, 10, 1⟩), ("B", ⟨0, 0, 0, 0, 1⟩)] ∧
    [nSharedAB].foldl fanOutNode [] =
      [("A", ⟨4, 2, 0, 0, 0⟩), ("B", ⟨4, 2, 0, 0, 0⟩)] := by
  decide

/-- Claim C7, counterexample: a node whose state sequence holds two of the
Mix/Alloc/Idle states has its 2 idle CPUs added twice (idle 4), not once
per node as the claim states. -/
theorem C7_counterexample :
    GetNodeStates nTwoStates = GoRes.ok [NodeState.Idle, NodeState.Alloc] ∧
    GetNodeIdleCPUs nTwoStates = 2 ∧
    ParseCPUsMetrics [nTwoStates] [] = GoRes.ok ⟨0, 4, 4, 8⟩ ∧
    ParseCPUsMetrics [nTwoStates] [] ≠ GoRes.ok ⟨0, 2, 6, 8⟩ := by
  decide

/-- Claim C7, amended: the idle tally adds a node's reported idle-CPU field
once per occurrence of Mix, Alloc or Idle in its state sequence (not once
per node); the concrete scenario of the claim — one running 4-CPU job and
two 8-CPU nodes of which one is Idle with 2 idle CPUs — still yields
alloc 4, idle 2, other 10, total 16 because that node has a single matching
state. -/
theorem C7_cpu_idle_per_state (n : NodeInfo) (c v : Int) (states : List NodeState)
    (hc : n.cpus = some c) (h1 : ¬ c = 1) (hv : n.allocIdleCpus = some v)
    (hs : GetNodeStates n = GoRes.ok states) :
    cpuNodesPass [n] 0 0 = GoRes.ok (c, matchCount states * v) ∧
    ParseCPUsMetrics [nIdle8, nDown8] [jRun4] = GoRes.ok ⟨4, 2, 10, 16⟩ := by
  constructor
  · simp [cpuNodesPass, hc, h1, hs, hv, idleFold_count]
  · decide

/-- Claim C7, witness: on the double-state node, the nodes pass reports
total 8 and idle 4 = two occurrences times 2 idle CPUs. -/
theorem C7_cpu_idle_per_state_witness :
    cpuNodesPass [nTwoStates] 0 0 =
      GoRes.ok (8, matchCount [NodeState.Idle, NodeState.Alloc] * 2) ∧
    ParseCPUsMetrics [nIdle8, nDown8] [jRun4] = GoRes.ok ⟨4, 2, 10, 16⟩ :=
  C7_cpu_idle_per_state nTwoStates 8 2 [NodeState.Idle, NodeState.Alloc]
    rfl (by decide) rfl (by decide)

/-- Claim C8: GPU extraction returns 4 on the full TRES string, 0 without
error when no pair matches the tag, an error when a matching pair's value
is not an integer, and an error when a matching pair does not split into
exactly two parts; the node-level accessors agree on the example node. -/
theorem C8_gpu_extraction :
    gpuCountFromTres "cpu=48,mem=1020522M,billing=48,gres/gpu=4" = GoRes.ok 4 ∧
    gpuCountFromTres "cpu=1,mem=1M,billing=1" = GoRes.ok 0 ∧
    gpuCountFromTres "cpu=48,gres/gpu=bad" =
      GoRes.err "failed to parse number of gpus from tres: gres/gpu=bad" ∧
    gpuCountFromTres "cpu=48,gres/gpu=4=5" =
      GoRes.err "found gpu in tres but failed to parse: gres/gpu=4=5" ∧
    GetNodeGPUTotal nGpu = GoRes.ok 4 ∧
    GetNodeGPUAllocated nGpu = GoRes.ok 0 := by
  decide

/-- Claim C9, counterexample: a share record with an absent account name or
an absent fairshare level makes `ParseFairShareMetrics` crash on a nil
dereference — the call does not return an error value as the claim states. -/
theorem C9_counterexample :
    ParseFairShareMetrics [sNoName] = GoRes.crash ∧
    isErr (ParseFairShareMetrics [sNoName]) = false ∧
    ParseFairShareMetrics [sNoLevel] = GoRes.crash ∧
    isErr (ParseFairShareMetrics [sNoLevel]) = false := by
  decide

/-- Claim C9, amended: the fair-share aggregation keys by account name with
last-write-wins — after a run that ends with a record for account a at
level l, the entry for a holds l — and a record with an absent name or
absent level crashes the call (nil dereference), it never returns an
error for that reason. -/
theorem C9_fair_share_last_write (ss : List ShareInfo) (s : ShareInfo)
    (a : String) (l : ℚ) (hn : s.name = some a) (hl : s.fairshareLevel = some l)
    (m : SMap FairShareMetrics) (h : ParseFairShareMetrics (ss ++ [s]) = GoRes.ok m) :
    mapFind m a = some ⟨l⟩ ∧
    (∀ (t : ShareInfo) (rest : List ShareInfo), t.name = none →
      ParseFairShareMetrics (t :: rest) = GoRes.crash) ∧
    (∀ (t : ShareInfo) (rest : List ShareInfo) (b : String), t.name = some b →
      t.fairshareLevel = none → ParseFairShareMetrics (t :: rest) = GoRes.crash) := by
  refine ⟨?_, ?_, ?_⟩
  · rw [ParseFairShareMetrics, fairShareGo_append] at h
    cases hss : fairShareGo ss [] with
    | crash => rw [hss] at h; simp at h
    | err e => rw [hss] at h; simp at h
    | ok m0 =>
      rw [hss] at h
      simp only at h
      rw [fairShareGo_cons s [] m0 a l hn hl] at h
      simp only [fairShareGo, GoRes.ok.injEq] at h
      rw [← h]
      exact mapFind_mapSet m0 a ⟨l⟩
  · intro t rest ht
    simp [ParseFairShareMetrics, fairShareGo, ht]
  · intro t rest b ht htl
    simp [ParseFairShareMetrics, fairShareGo, ht, htl]

/-- Claim C9, witness: with account a seen at level 1 and again, last, at
level 2, the resulting entry for a is 2; a record with a missing name
crashes. -/
theorem C9_fair_share_last_write_witness :
    mapFind [("a", (⟨2⟩ : FairShareMetrics)), ("b", ⟨5⟩)] "a" = some ⟨2⟩ ∧
    ParseFairShareMetrics [sNoName] = GoRes.crash :=
  ⟨(C9_fair_share_last_write [sA1, sB5] sA2 "a" 2 rfl rfl
      [("a", ⟨2⟩), ("b", ⟨5⟩)] (by decide)).1,
   (C9_fair_share_last_write [sA1, sB5] sA2 "a" 2 rfl rfl
      [("a", ⟨2⟩), ("b", ⟨5⟩)] (by decide)).2.1 sNoName [] rfl⟩

end SlurmExporter
